import Mathlib

/-
  Verification development for scripts/analyze_enrichment_NSC.py.

  Shallow embedding conventions:
  - Python strings are modelled as List Char (PyStr).
  - pandas DataFrames holding peaks are modelled by PeakFrame: either the
    column-less empty frame produced by pd.DataFrame(), or a table of rows
    carrying the columns the script actually reads (chr, start, end,
    signalValue, qValue, plus the dynamically attached sample tag).  The
    passive columns name, score, strand, pValue, peak are never read by the
    scored code paths and are omitted.
  - float arithmetic on parsed decimal inputs is modelled over the rationals;
    the special values of numpy float division and of -log10 are modelled
    explicitly (Score, NpR below).
  - a pandas operation that raises (KeyError on a missing column) is modelled
    with Except.
-/

set_option maxRecDepth 8000

abbrev PyStr := List Char

/-- Python s.split(chr)[0] for the dot: everything before the first dot. -/
def pySplitHeadDot (s : PyStr) : PyStr :=
  s.takeWhile (fun c => decide (c ≠ '.'))

/-- Python: if s.startswith(p): s = s[len(p):] - one conditional strip. -/
def stripPrefixOnce (p s : PyStr) : PyStr :=
  if p.isPrefixOf s then s.drop p.length else s

/-- The loop over prefixes in standardize_gene_name, unrolled in source
order: gene-, then Gene-, then GENE- (each checked on the current value). -/
def stripGenePrefixes (s : PyStr) : PyStr :=
  stripPrefixOnce "GENE-".toList
    (stripPrefixOnce "Gene-".toList
      (stripPrefixOnce "gene-".toList s))

/-- Python str.strip(): whitespace removed from both ends. -/
def pyStrip (s : PyStr) : PyStr :=
  ((s.dropWhile Char.isWhitespace).reverse.dropWhile Char.isWhitespace).reverse

/-- Body of standardize_gene_name on a non-null input: drop the first dot and
what follows, strip the prefix cascade, trim whitespace. -/
def stdBody (s : PyStr) : PyStr :=
  pyStrip (stripGenePrefixes (pySplitHeadDot s))

/-- standardize_gene_name (source lines 147-164): None for missing input,
otherwise version suffix, prefix cascade, whitespace trim. -/
def standardize_gene_name : Option PyStr → Option PyStr
  | none => none
  | some s => some (stdBody s)

/-- Does the string begin with one of the three prefixes the source strips? -/
def hasGenePrefixAtHead (s : PyStr) : Bool :=
  "gene-".toList.isPrefixOf s || "Gene-".toList.isPrefixOf s ||
    "GENE-".toList.isPrefixOf s

-- ### helper lemmas about the string primitives

theorem dropWhile_head_shape (p : Char → Bool) (l : List Char) :
    l.dropWhile p = [] ∨ ∃ a t, l.dropWhile p = a :: t ∧ p a = false := by
  induction l with
  | nil => exact Or.inl rfl
  | cons a t ih =>
    by_cases h : p a
    · simpa [List.dropWhile, h] using ih
    · exact Or.inr ⟨a, t, by simp [List.dropWhile, h], by simp [h]⟩

theorem dropWhile_self_of_head (p : Char → Bool) (l : List Char)
    (h : ∀ a t, l = a :: t → p a = false) : l.dropWhile p = l := by
  cases l with
  | nil => rfl
  | cons a t => simp [List.dropWhile, h a t rfl]

theorem dropWhile_idem (p : Char → Bool) (l : List Char) :
    (l.dropWhile p).dropWhile p = l.dropWhile p := by
  rcases dropWhile_head_shape p l with h | ⟨a, t, h, hp⟩ <;> rw [h]
  · rfl
  · simp [List.dropWhile, hp]

theorem pyStrip_idem (l : PyStr) : pyStrip (pyStrip l) = pyStrip l := by
  unfold pyStrip
  set w := Char.isWhitespace with hw
  set t := l.dropWhile w with ht
  set v := t.reverse.dropWhile w with hv
  have hsuffix : v <:+ t.reverse := by rw [hv]; exact List.dropWhile_suffix w
  have hpre : v.reverse <+: t := by
    have h2 := List.reverse_prefix.2 hsuffix
    rwa [List.reverse_reverse] at h2
  have hdropu : v.reverse.dropWhile w = v.reverse := by
    apply dropWhile_self_of_head
    intro a s hcons
    obtain ⟨rest, hrest⟩ := hpre
    rcases dropWhile_head_shape w l with h0 | ⟨b, tb, hb, hpb⟩
    · exfalso
      rw [← ht] at h0
      rw [h0] at hrest
      simp [hcons] at hrest
    · rw [← ht] at hb
      rw [hb, hcons] at hrest
      simp at hrest
      rw [hrest.1]
      exact hpb
  have hdropv : v.dropWhile w = v := by
    rw [hv]; exact dropWhile_idem w t.reverse
  rw [hdropu, List.reverse_reverse, hdropv]

theorem mem_of_mem_stripPrefixOnce {c : Char} {p s : PyStr}
    (h : c ∈ stripPrefixOnce p s) : c ∈ s := by
  unfold stripPrefixOnce at h
  split at h
  · exact (List.drop_subset _ s) h
  · exact h

theorem mem_of_mem_stripGenePrefixes {c : Char} {s : PyStr}
    (h : c ∈ stripGenePrefixes s) : c ∈ s := by
  unfold stripGenePrefixes at h
  exact mem_of_mem_stripPrefixOnce
    (mem_of_mem_stripPrefixOnce (mem_of_mem_stripPrefixOnce h))

theorem mem_of_mem_pyStrip {c : Char} {s : PyStr} (h : c ∈ pyStrip s) : c ∈ s := by
  unfold pyStrip at h
  rw [List.mem_reverse] at h
  have h1 := (List.dropWhile_suffix Char.isWhitespace).subset h
  rw [List.mem_reverse] at h1
  exact (List.dropWhile_suffix Char.isWhitespace).subset h1

theorem dot_not_mem_pySplitHeadDot (s : PyStr) : '.' ∉ pySplitHeadDot s := by
  intro h
  have := List.mem_takeWhile_imp h
  simp at this

theorem dot_not_mem_stdBody (s : PyStr) : '.' ∉ stdBody s := by
  intro h
  exact dot_not_mem_pySplitHeadDot s
    (mem_of_mem_stripGenePrefixes (mem_of_mem_pyStrip h))

theorem takeWhile_ne_dot_self (l : PyStr) (h : '.' ∉ l) :
    l.takeWhile (fun c => decide (c ≠ '.')) = l := by
  induction l with
  | nil => rfl
  | cons a t ih =>
    have ha : a ≠ '.' := by rintro rfl; exact h (List.mem_cons_self _ _)
    have ht : t.takeWhile (fun c => decide (c ≠ '.')) = t :=
      ih (fun hm => h (List.mem_cons_of_mem a hm))
    simp [List.takeWhile_cons, ha, ht]
    intro x hx hq
    rw [hq] at hx
    exact h (List.mem_cons_of_mem a hx)

theorem stripPrefixOnce_self {p s : PyStr} (h : p.isPrefixOf s = false) :
    stripPrefixOnce p s = s := by
  unfold stripPrefixOnce
  simp [h]

theorem stripGenePrefixes_self {s : PyStr} (h : hasGenePrefixAtHead s = false) :
    stripGenePrefixes s = s := by
  unfold hasGenePrefixAtHead at h
  simp only [Bool.or_eq_false_iff] at h
  unfold stripGenePrefixes
  rw [stripPrefixOnce_self h.1.1, stripPrefixOnce_self h.1.2,
    stripPrefixOnce_self h.2]

theorem stdBody_of_clean (r : PyStr) (hdot : '.' ∉ r)
    (hpre : hasGenePrefixAtHead r = false) (hstrip : pyStrip r = r) :
    stdBody r = r := by
  unfold stdBody
  rw [show pySplitHeadDot r = r from takeWhile_ne_dot_self r hdot,
    stripGenePrefixes_self hpre, hstrip]

theorem pyStrip_stdBody (s : PyStr) : pyStrip (stdBody s) = stdBody s := by
  unfold stdBody
  exact pyStrip_idem _

/-- Claim C4: standardize_gene_name maps None to None, and it is idempotent
on every input whose standardized form does not itself begin with one of the
stripped prefixes gene-, Gene-, GENE-.  (Unrestricted idempotency is refuted
by the counterexample theorem: the ordered prefix cascade can expose a fresh
prefix that only a second application removes.) -/
theorem C4_standardize_idem :
    standardize_gene_name none = none ∧
    ∀ s : PyStr, hasGenePrefixAtHead (stdBody s) = false →
      standardize_gene_name (standardize_gene_name (some s)) =
        standardize_gene_name (some s) := by
  refine ⟨rfl, fun s h => ?_⟩
  show some (stdBody (stdBody s)) = some (stdBody s)
  rw [stdBody_of_clean (stdBody s) (dot_not_mem_stdBody s) h (pyStrip_stdBody s)]

/-- Claim C4 witness: idempotency at the concrete input Gene-Abc.3. -/
theorem C4_standardize_idem_witness :
    standardize_gene_name (standardize_gene_name (some "Gene-Abc.3".toList)) =
      standardize_gene_name (some "Gene-Abc.3".toList) :=
  C4_standardize_idem.2 _ (by decide)

/-- Claim C4 counterexample: standardize_gene_name is not idempotent as the
claim states it for every input.  On Gene-gene-Abc one application yields
gene-Abc (the cascade checks gene- before the Gene- strip exposes it) and a
second application yields Abc. -/
theorem C4_standardize_not_idempotent :
    standardize_gene_name (standardize_gene_name (some "Gene-gene-Abc".toList)) ≠
      standardize_gene_name (some "Gene-gene-Abc".toList) := by
  decide

-- ### Peak frames (pandas DataFrames of peaks)

/-- One peak row with the columns the scored code paths read.  The column
named end in the source is a Lean keyword and is embedded as stop.  The
sample field models the sample column attached in get_peaks_near_gene; it is
empty on freshly loaded frames, which never read it. -/
structure PeakRow where
  chr : PyStr
  start : Int
  stop : Int
  signalValue : ℚ
  qValue : ℚ
  sample : PyStr
deriving DecidableEq, Repr

/-- A pandas DataFrame of peaks: either pd.DataFrame() - zero rows AND zero
columns, as returned by get_peaks_near_gene for a miss - or a frame carrying
the peak schema. -/
inductive PeakFrame
  | emptyNoCols : PeakFrame
  | table : List PeakRow → PeakFrame
deriving DecidableEq, Repr

/-- The pandas exceptions the embedded operations can raise. -/
inductive PdErr
  | keyError (col : PyStr)
deriving DecidableEq, Repr

/-- len(df). -/
def frameLen : PeakFrame → ℕ
  | .emptyNoCols => 0
  | .table rows => rows.length

/-- df.empty. -/
def frameEmpty : PeakFrame → Bool
  | .emptyNoCols => true
  | .table rows => rows.isEmpty

/-- df[signalValue column]: raises KeyError on the column-less empty frame. -/
def colSignalValues : PeakFrame → Except PdErr (List ℚ)
  | .emptyNoCols => .error (.keyError "signalValue".toList)
  | .table rows => .ok (rows.map PeakRow.signalValue)

/-- len(df.groupby([chr, start, end])): the number of distinct
(chr, start, end) triples.  On pd.DataFrame() the groupby raises
KeyError(chr) because the columns do not exist. -/
def groupbyLen : PeakFrame → Except PdErr ℕ
  | .emptyNoCols => .error (.keyError "chr".toList)
  | .table rows => .ok ((rows.map fun r => (r.chr, r.start, r.stop)).dedup.length)

-- ### scores and numpy float special values over the rationals

/-- A numpy float score: finite value, infinities, or not-a-number. -/
inductive Score
  | nan : Score
  | inf : Score
  | ninf : Score
  | val (q : ℚ) : Score
deriving DecidableEq, Repr

def qMean (l : List ℚ) : ℚ := l.sum / (l.length : ℚ)

/-- numpy float division including the x/0 special cases. -/
def npDiv (a b : ℚ) : Score :=
  if b = 0 then (if a = 0 then .nan else if 0 < a then .inf else .ninf)
  else .val (a / b)

def isNanScore : Score → Bool
  | .nan => true
  | _ => false

-- ### the enrichment methods under test (source lines 259-327)

/-- Method 1, signal_ratio (source lines 263-269): mean signal ratio with
explicit guards for empty inputs. -/
def signal_ratio (exo endo : PeakFrame) : Except PdErr Score :=
  if 0 < frameLen exo ∧ 0 < frameLen endo then do
    let se ← colSignalValues exo
    let sn ← colSignalValues endo
    Except.ok (npDiv (qMean se) (qMean sn))
  else if 0 < frameLen exo then Except.ok .inf
  else Except.ok (.val 0)

/-- Method 2, peak_count (source lines 271-275): distinct-locus count ratio,
denominator clamped to at least 1.  Both groupbys run unconditionally. -/
def peak_count (exo endo : PeakFrame) : Except PdErr Score := do
  let ge ← groupbyLen exo
  let gn ← groupbyLen endo
  Except.ok (.val ((ge : ℚ) / ((max gn 1 : ℕ) : ℚ)))

/-- Hypergeometric probability of the 2x2 table with first cell k, given row
sums r1, r2 and first column sum c1. -/
def hypergeomPMF (r1 r2 c1 k : ℕ) : ℚ :=
  ((Nat.choose r1 k * Nat.choose r2 (c1 - k) : ℕ) : ℚ) /
    ((Nat.choose (r1 + r2) c1 : ℕ) : ℚ)

/-- Two-sided Fisher exact test p-value on the table [[a, b], [c, d]]: the
sum of the probabilities of all tables with the same margins that are no
more probable than the observed one.  scipy.stats.fisher_exact compares
probabilities with a small relative tolerance; the model compares exactly,
which is the mathematical definition of the test. -/
def fisher_exact_two_sided (a b c d : ℕ) : ℚ :=
  ((((List.range (min (a + b) (a + c) + 1)).filter fun k =>
      decide (a + c ≤ k + (c + d)) &&
        decide (hypergeomPMF (a + b) (c + d) (a + c) k ≤
          hypergeomPMF (a + b) (c + d) (a + c) a)).map
    (hypergeomPMF (a + b) (c + d) (a + c))).sum)

/-- Method 4, statistical (source lines 285-293): Fisher exact p-value on the
contingency table of distinct-locus counts against the genome-wide total;
numpy nan when both subsets are empty.  The groupbys run before the test
whenever at least one subset is nonempty.  In the pipeline the genome-wide
total is at least every subset count, so the natural subtraction below never
truncates (scipy rejects negative cells). -/
def statistical (total : ℕ) (exo endo : PeakFrame) : Except PdErr Score :=
  if 0 < frameLen exo ∨ 0 < frameLen endo then do
    let ge ← groupbyLen exo
    let gn ← groupbyLen endo
    Except.ok (.val (fisher_exact_two_sided ge gn (total - ge) (total - gn)))
  else Except.ok .nan

-- ### promoter windows and peak lookup (source lines 214-251)

/-- The window half-width defined at source line 11. -/
def PROMOTER_WINDOW : Int := 2000

/-- A gene record as stored in the name lookup built from the feature table:
the fields get_peaks_near_gene reads. -/
structure GeneInfo where
  chr : PyStr
  start : Int
  stop : Int
  strand : PyStr
deriving DecidableEq, Repr

/-- The promoter interval computed at source lines 224-229: anchored at the
start coordinate on the plus strand and at the end coordinate otherwise,
with the left edge clamped at zero. -/
def promoter_window (g : GeneInfo) (window : Int) : Int × Int :=
  if g.strand = "+".toList then (max 0 (g.start - window), g.start + window)
  else (max 0 (g.stop - window), g.stop + window)

/-- The per-sample overlap filter of source lines 233-241: same chromosome,
then peak.start <= promoter end and peak.end >= promoter start. -/
def overlapping_peaks (rows : List PeakRow) (gchr : PyStr) (ps pe : Int) :
    List PeakRow :=
  (rows.filter fun p => decide (p.chr = gchr)).filter
    fun p => decide (p.start ≤ pe) && decide (ps ≤ p.stop)

-- ### the load-time validation of source lines 133-136

/-- The check in load_data: raise ValueError when every exogenous frame is
empty OR every endogenous frame is empty. -/
def validate_peak_data (peaksExo peaksEndo : List PeakFrame) :
    Except PyStr Unit :=
  if peaksExo.all frameEmpty || peaksEndo.all frameEmpty then
    .error "Insufficient peak data for analysis".toList
  else .ok ()

-- ### shared concrete fixture rows

def mkPeak (c : PyStr) (s e : Int) (sig q : ℚ) : PeakRow :=
  ⟨c, s, e, sig, q, []⟩

def peakOne : PeakRow := mkPeak "chr1".toList 100 200 3 1

-- ### claims C2, C3, C5, C6, C7, C8

/-- Claim C2 (code behavior at the failing input): with an empty exogenous
subset - the column-less frame get_peaks_near_gene returns - peak_count does
not return 0: its groupby raises KeyError(chr); likewise with a nonempty
exogenous and empty endogenous subset it does not return distinct(exo)/1 but
raises.  The per-gene handler then drops the gene for this method. -/
theorem C2_peak_count_raises :
    peak_count PeakFrame.emptyNoCols (PeakFrame.table [peakOne]) =
      Except.error (PdErr.keyError "chr".toList) ∧
    peak_count (PeakFrame.table [peakOne]) PeakFrame.emptyNoCols =
      Except.error (PdErr.keyError "chr".toList) :=
  ⟨rfl, rfl⟩

/-- Claim C3 (code behavior at the failing input): statistical returns numpy
nan when both subsets are empty, but when exactly one subset is empty it does
not return a p-value: the groupby on the column-less empty frame raises
KeyError(chr). -/
theorem C3_statistical_raises :
    statistical 10 PeakFrame.emptyNoCols (PeakFrame.table [peakOne]) =
      Except.error (PdErr.keyError "chr".toList) ∧
    statistical 10 (PeakFrame.table [peakOne]) PeakFrame.emptyNoCols =
      Except.error (PdErr.keyError "chr".toList) ∧
    statistical 10 PeakFrame.emptyNoCols PeakFrame.emptyNoCols =
      Except.ok Score.nan := by
  exact ⟨rfl, rfl, rfl⟩

/-- Claim C5 counterexample: the run does not continue when exactly one
condition degrades to entirely empty tables.  With the exogenous condition
empty and the endogenous condition holding data, load_data raises. -/
theorem C5_one_sided_empty_aborts :
    validate_peak_data [PeakFrame.emptyNoCols] [PeakFrame.table [peakOne]] =
      Except.error "Insufficient peak data for analysis".toList ∧
    ([PeakFrame.table [peakOne]].all frameEmpty) = false :=
  ⟨rfl, rfl⟩

/-- Claim C5 amended: loading aborts fatally exactly when at least one
condition has entirely empty peak tables (in particular when both do); only
when each condition retains a nonempty table does the run continue past
validation, with empty frames tolerated sample-by-sample. -/
theorem C5_validate_error_iff (pe pn : List PeakFrame) :
    validate_peak_data pe pn =
        Except.error "Insufficient peak data for analysis".toList ↔
      (pe.all frameEmpty = true ∨ pn.all frameEmpty = true) := by
  unfold validate_peak_data
  split
  next h =>
    rw [Bool.or_eq_true] at h
    exact iff_of_true rfl h
  next h =>
    rw [Bool.or_eq_true] at h
    exact iff_of_false (fun hc => Except.noConfusion hc) h

/-- Claim C6: signal_ratio returns 0 whenever the exogenous subset is empty
(whatever the endogenous subset), positive infinity when the exogenous subset
is nonempty and the endogenous one empty, and the numpy quotient of the mean
signal values when both are nonempty. -/
theorem C6_signal_ratio_cases (exo endo : PeakFrame) :
    (frameLen exo = 0 → signal_ratio exo endo = Except.ok (Score.val 0)) ∧
    (0 < frameLen exo → frameLen endo = 0 →
      signal_ratio exo endo = Except.ok Score.inf) ∧
    (∀ xs ys : List PeakRow, exo = PeakFrame.table xs → endo = PeakFrame.table ys →
      xs ≠ [] → ys ≠ [] →
      signal_ratio exo endo =
        Except.ok (npDiv (qMean (xs.map PeakRow.signalValue))
          (qMean (ys.map PeakRow.signalValue)))) := by
  refine ⟨fun h => ?_, fun h1 h2 => ?_, fun xs ys hx hy hxe hye => ?_⟩
  · simp [signal_ratio, h]
  · simp [signal_ratio, h1, h2]
  · subst hx; subst hy
    have hc : 0 < frameLen (PeakFrame.table xs) ∧ 0 < frameLen (PeakFrame.table ys) :=
      ⟨by simpa [frameLen] using List.length_pos.mpr hxe,
       by simpa [frameLen] using List.length_pos.mpr hye⟩
    unfold signal_ratio
    rw [if_pos hc]
    rfl

/-- Claim C6 witness: a nonempty exogenous and empty endogenous subset gives
positive infinity. -/
theorem C6_signal_ratio_witness :
    signal_ratio (PeakFrame.table [peakOne]) PeakFrame.emptyNoCols =
      Except.ok Score.inf :=
  (C6_signal_ratio_cases (PeakFrame.table [peakOne]) PeakFrame.emptyNoCols).2.1
    (by decide) (by decide)

/-- Claim C7: on the plus strand the promoter window is
[max(0, start - window), start + window]; on the minus strand it is anchored
at the end coordinate, [max(0, end - window), end + window]; and the default
half-width constant is 2000. -/
theorem C7_promoter_window_cases (g : GeneInfo) (w : Int) :
    (g.strand = "+".toList →
      promoter_window g w = (max 0 (g.start - w), g.start + w)) ∧
    (g.strand = "-".toList →
      promoter_window g w = (max 0 (g.stop - w), g.stop + w)) ∧
    PROMOTER_WINDOW = 2000 := by
  refine ⟨fun h => by unfold promoter_window; rw [if_pos h], fun h => ?_, rfl⟩
  have hne : g.strand ≠ "+".toList := by rw [h]; decide
  unfold promoter_window
  rw [if_neg hne]

def geneC7 : GeneInfo := ⟨"chr1".toList, 1000, 5000, "+".toList⟩

/-- Claim C7 witness: the plus-strand case at a concrete gene. -/
theorem C7_promoter_window_witness :
    promoter_window geneC7 2000 =
      (max 0 (geneC7.start - 2000), geneC7.start + 2000) :=
  (C7_promoter_window_cases geneC7 2000).1 rfl

/-- Claim C8: a peak joins the promoter subset of a sample exactly when it
lies on the chromosome of the gene and peak.start <= promoter end and
peak.end >= promoter start, both comparisons inclusive. -/
theorem C8_overlap_iff (rows : List PeakRow) (gchr : PyStr) (ps pe : Int)
    (p : PeakRow) :
    p ∈ overlapping_peaks rows gchr ps pe ↔
      p ∈ rows ∧ p.chr = gchr ∧ p.start ≤ pe ∧ ps ≤ p.stop := by
  simp only [overlapping_peaks, List.mem_filter, Bool.and_eq_true,
    decide_eq_true_eq]
  tauto

-- ### numpy extended floats over the reals, for area_integration

/-- A numpy float value for the area-integration method: finite real,
infinities, or not-a-number.  The reals stand in for the float values; the
special cases of log10, clip, multiplication and addition are modelled
explicitly. -/
inductive NpR
  | nan : NpR
  | inf : NpR
  | ninf : NpR
  | fin (x : ℝ) : NpR

/-- numpy log10 on a float input: log10(0) is negative infinity (with a
warning), log10 of a negative number is nan, and positive inputs give the
real logarithm base 10. -/
noncomputable def np_log10q (q : ℚ) : NpR :=
  if q = 0 then .ninf else if 0 < q then .fin (Real.logb 10 (q : ℝ)) else .nan

def nprNeg : NpR → NpR
  | .nan => .nan
  | .inf => .ninf
  | .ninf => .inf
  | .fin x => .fin (-x)

/-- np.clip(x, lo, hi) = min(max(x, lo), hi) on floats: nan propagates,
positive infinity caps to hi, negative infinity floors to lo. -/
def npClip (x : NpR) (lo hi : ℝ) : NpR :=
  match x with
  | .nan => .nan
  | .inf => .fin hi
  | .ninf => .fin lo
  | .fin v => .fin (min (max v lo) hi)

def nprSign (x : ℝ) [Decidable (0 < x)] [Decidable (x < 0)] : Int :=
  if 0 < x then 1 else if x < 0 then -1 else 0

/-- IEEE float multiplication on the extended values. -/
noncomputable def nprMul : NpR → NpR → NpR
  | .nan, _ => .nan
  | _, .nan => .nan
  | .inf, .inf => .inf
  | .inf, .ninf => .ninf
  | .ninf, .inf => .ninf
  | .ninf, .ninf => .inf
  | .inf, .fin b => if 0 < b then .inf else if b < 0 then .ninf else .nan
  | .fin a, .inf => if 0 < a then .inf else if a < 0 then .ninf else .nan
  | .ninf, .fin b => if 0 < b then .ninf else if b < 0 then .inf else .nan
  | .fin a, .ninf => if 0 < a then .ninf else if a < 0 then .inf else .nan
  | .fin a, .fin b => .fin (a * b)

/-- IEEE float addition on the extended values. -/
noncomputable def nprAdd : NpR → NpR → NpR
  | .nan, _ => .nan
  | _, .nan => .nan
  | .inf, .ninf => .nan
  | .ninf, .inf => .nan
  | .inf, _ => .inf
  | _, .inf => .inf
  | .ninf, _ => .ninf
  | _, .ninf => .ninf
  | .fin a, .fin b => .fin (a + b)

/-- IEEE float division on the extended values, including x/0. -/
noncomputable def nprDiv : NpR → NpR → NpR
  | .nan, _ => .nan
  | _, .nan => .nan
  | .inf, .inf => .nan
  | .inf, .ninf => .nan
  | .ninf, .inf => .nan
  | .ninf, .ninf => .nan
  | .inf, .fin b => if 0 ≤ b then .inf else .ninf
  | .ninf, .fin b => if 0 ≤ b then .ninf else .inf
  | .fin _, .inf => .fin 0
  | .fin _, .ninf => .fin 0
  | .fin a, .fin b =>
      if b = 0 then (if a = 0 then .nan else if 0 < a then .inf else .ninf)
      else .fin (a / b)

/-- Python max(x, 1) on a float: returns 1 only when 1 > x, so nan and the
infinities pass through (max(nan, 1) is nan). -/
noncomputable def pyMaxOne : NpR → NpR
  | .nan => .nan
  | .inf => .inf
  | .ninf => .fin 1
  | .fin v => if 1 > v then .fin 1 else .fin v

/-- The per-peak weight factor of area_integration (source line 316):
np.clip(-np.log10(qValue), 0, 50) - the logarithm is taken first, the clip
second, so a q-value of zero is capped at 50 instead of staying infinite. -/
noncomputable def area_weight (q : ℚ) : NpR :=
  npClip (nprNeg (np_log10q q)) 0 50

/-- The per-peak contribution to an area_integration sum (source lines
314-316): (end - start) * signalValue * clipped weight. -/
noncomputable def area_term (r : PeakRow) : NpR :=
  nprMul (nprMul (.fin ((r.stop - r.start : ℤ) : ℝ)) (.fin (r.signalValue : ℝ)))
    (area_weight r.qValue)

/-- np.sum of the per-peak contributions of a row list. -/
noncomputable def areaSum (rows : List PeakRow) : NpR :=
  rows.foldl (fun acc r => nprAdd acc (area_term r)) (.fin 0)

/-- Access to the row list of a frame for area_integration, whose first
column read is end: raises KeyError(end) on the column-less empty frame. -/
def frameRowsEndFirst : PeakFrame → Except PdErr (List PeakRow)
  | .emptyNoCols => .error (.keyError "end".toList)
  | .table rows => .ok rows

/-- Method 7, area_integration (source lines 311-324): ratio of the summed
per-peak areas, denominator passed through max(., 1), with 0.0 when the
exogenous subset is empty.  The endogenous columns are read unconditionally
inside the nonempty-exogenous branch. -/
noncomputable def area_integration (exo endo : PeakFrame) : Except PdErr NpR :=
  if 0 < frameLen exo then do
    let erows ← frameRowsEndFirst exo
    let nrows ← frameRowsEndFirst endo
    Except.ok (nprDiv (areaSum erows) (pyMaxOne (areaSum nrows)))
  else Except.ok (.fin 0)

/-- Claim C9: in area_integration a peak with q-value 0 contributes the
finite weight width * signal * 50 - the infinite -log10 is capped by the
clip ceiling, never an infinite or nan contribution - and a peak with
q-value 1 contributes exactly zero, since -log10(1) = 0. -/
theorem C9_area_term_qvalues (r : PeakRow) :
    (r.qValue = 0 →
      area_term r =
        NpR.fin (((r.stop - r.start : ℤ) : ℝ) * (r.signalValue : ℝ) * 50)) ∧
    (r.qValue = 1 → area_term r = NpR.fin 0) := by
  constructor
  · intro h
    unfold area_term area_weight np_log10q
    rw [h]
    simp only [if_pos rfl]
    show nprMul (nprMul _ _) (npClip (nprNeg NpR.ninf) 0 50) = _
    simp only [nprNeg, npClip, nprMul]
  · intro h
    unfold area_term area_weight np_log10q
    rw [h]
    have h1 : ¬ ((1 : ℚ) = 0) := by norm_num
    have h2 : (0 : ℚ) < 1 := by norm_num
    rw [if_neg h1, if_pos h2]
    show nprMul (nprMul _ _) (npClip (nprNeg (NpR.fin (Real.logb 10 ((1 : ℚ) : ℝ)))) 0 50) = _
    have hlog : Real.logb 10 ((1 : ℚ) : ℝ) = 0 := by
      push_cast
      exact Real.logb_one
    rw [hlog]
    simp only [nprNeg, neg_zero, npClip, nprMul]
    have hmm : min (max (0 : ℝ) 0) 50 = 0 := by norm_num
    rw [hmm, mul_zero]

def peakQZero : PeakRow := mkPeak "chr1".toList 100 300 5 0

/-- Claim C9 witness: the q-value-zero case at a concrete peak. -/
theorem C9_area_term_witness :
    area_term peakQZero =
      NpR.fin (((peakQZero.stop - peakQZero.start : ℤ) : ℝ) *
        (peakQZero.signalValue : ℝ) * 50) :=
  (C9_area_term_qvalues peakQZero).1 rfl

-- ### gene lookup and peak retrieval (source lines 214-251)

/-- Lookup in the name-to-record dictionary built from the feature table.
The built dictionary holds each standardized key once (later inserts
overwrite), so first-match lookup models dict access. -/
def lookupInfo (n2i : List (PyStr × GeneInfo)) (key : PyStr) : Option GeneInfo :=
  (n2i.find? fun kv => decide (kv.1 = key)).map Prod.snd

/-- Per-sample access peaks[chr column]: raises KeyError(chr) when the
sample loaded as the column-less empty frame (missing or malformed file). -/
def framePeaksChrFirst : PeakFrame → Except PdErr (List PeakRow)
  | .emptyNoCols => .error (.keyError "chr".toList)
  | .table rows => .ok rows

/-- The sample loop of get_peaks_near_gene (source lines 232-245): for each
sample in iteration order, filter to the chromosome and the window overlap,
tag survivors with the sample id, and keep nonempty groups in order. -/
def collect_overlaps (dict : List (PyStr × PeakFrame)) (gchr : PyStr)
    (ps pe : Int) : Except PdErr (List (List PeakRow)) :=
  match dict with
  | [] => .ok []
  | (sampleId, f) :: rest => do
    let rows ← framePeaksChrFirst f
    let ov := overlapping_peaks rows gchr ps pe
    let tagged := ov.map fun r => { r with sample := sampleId }
    let restAcc ← collect_overlaps rest gchr ps pe
    Except.ok (if ov.isEmpty then restAcc else tagged :: restAcc)

/-- get_peaks_near_gene (source lines 214-251): standardize the gene name,
return the column-less empty frame on a lookup miss or when no sample
overlaps, otherwise the concatenation of the per-sample overlap groups. -/
def get_peaks_near_gene (gene : PyStr) (peaksDict : List (PyStr × PeakFrame))
    (n2i : List (PyStr × GeneInfo)) (window : Int) : Except PdErr PeakFrame :=
  match lookupInfo n2i (stdBody gene) with
  | none => .ok .emptyNoCols
  | some gi => do
    let pw := promoter_window gi window
    let groups ← collect_overlaps peaksDict gi.chr pw.1 pw.2
    if groups.isEmpty then Except.ok .emptyNoCols
    else Except.ok (.table groups.flatten)

-- ### the per-method scoring loop of analyze_enrichment (source lines 329-418)

/-- One row of the differential-expression table: the columns the loop
reads.  Not-available padj values, which pandas comparisons treat as
failing, are outside the claims and not modelled. -/
structure DeaRow where
  gene : Option PyStr
  log2FoldChange : ℚ
  padj : ℚ
deriving DecidableEq, Repr

/-- The gene_std column added at source line 340. -/
def dea_gene_std (r : DeaRow) : Option PyStr := standardize_gene_name r.gene

/-- The up-regulated gene list of source lines 343-347: one entry per row
passing log2FoldChange > 0.5, padj < 0.05, standardized name present -
duplicates retained. -/
def upreg_genes (dea : List DeaRow) : List PyStr :=
  (dea.filter fun r =>
    decide ((1 : ℚ)/2 < r.log2FoldChange) && decide (r.padj < (1 : ℚ)/20) &&
      (dea_gene_std r).isSome).filterMap dea_gene_std

/-- One result record appended at source lines 391-400. -/
structure EnrichmentRecord where
  gene : PyStr
  enrichment_score : Score
  log2FoldChange : ℚ
  padj : ℚ
  exo_peaks : PyStr
  endo_peaks : PyStr
  num_exo_peaks : ℕ
  num_endo_peaks : ℕ
deriving DecidableEq, Repr

/-- The chr:start-end coordinate string of source lines 383-389. -/
def coordStr (r : PeakRow) : PyStr :=
  r.chr ++ ":".toList ++ (toString r.start).toList ++ "-".toList ++
    (toString r.stop).toList

def frameCoords : PeakFrame → List PyStr
  | .emptyNoCols => []
  | .table rows => rows.map coordStr

/-- Semicolon joining with the literal None for an empty list (source lines
396-397). -/
def joinSemicolonOrNone (l : List PyStr) : PyStr :=
  match l with
  | [] => "None".toList
  | _ => (l.intersperse ";".toList).flatten

/-- The body of the per-gene loop of source lines 368-404 for one method:
fetch both subsets, require at least one nonempty, score, fetch the first
matching row of the full table for log2FoldChange and padj, drop nan scores.
Any raised error (KeyError from a column access, no matching row for
iloc[0]) is caught by the per-gene handler: the gene yields no record. -/
def process_gene (dea : List DeaRow) (peaksExo peaksEndo : List (PyStr × PeakFrame))
    (n2i : List (PyStr × GeneInfo))
    (method : PeakFrame → PeakFrame → Except PdErr Score) (gene : PyStr) :
    Option EnrichmentRecord :=
  match get_peaks_near_gene gene peaksExo n2i PROMOTER_WINDOW,
      get_peaks_near_gene gene peaksEndo n2i PROMOTER_WINDOW with
  | .ok exo, .ok endo =>
    if frameEmpty exo && frameEmpty endo then none
    else
      match method exo endo with
      | .error _ => none
      | .ok score =>
        match dea.find? fun r => decide (dea_gene_std r = some gene) with
        | none => none
        | some info =>
          if isNanScore score then none
          else some {
            gene := gene,
            enrichment_score := score,
            log2FoldChange := info.log2FoldChange,
            padj := info.padj,
            exo_peaks := joinSemicolonOrNone (frameCoords exo),
            endo_peaks := joinSemicolonOrNone (frameCoords endo),
            num_exo_peaks := (frameCoords exo).length,
            num_endo_peaks := (frameCoords endo).length }
  | _, _ => none

/-- The per-method record list, in processing order (source lines 359-410). -/
def analyze_method (dea : List DeaRow) (peaksExo peaksEndo : List (PyStr × PeakFrame))
    (n2i : List (PyStr × GeneInfo))
    (method : PeakFrame → PeakFrame → Except PdErr Score) : List EnrichmentRecord :=
  (upreg_genes dea).filterMap (process_gene dea peaksExo peaksEndo n2i method)

-- ### the two writes of enrichment_<method>_NSC.csv

/-- The float order used by sort_values on enrichment_score: negative
infinity lowest, positive infinity highest.  Result lists never contain nan
(filtered before the append), so its placement is irrelevant. -/
def scoreLeB : Score → Score → Bool
  | .nan, _ => true
  | _, .nan => false
  | .ninf, _ => true
  | _, .ninf => false
  | _, .inf => true
  | .inf, _ => false
  | .val a, .val b => decide (a ≤ b)

def insertDescByScore (r : EnrichmentRecord) :
    List EnrichmentRecord → List EnrichmentRecord
  | [] => [r]
  | x :: xs =>
    if scoreLeB x.enrichment_score r.enrichment_score then r :: x :: xs
    else x :: insertDescByScore r xs

/-- df.sort_values(enrichment_score, ascending=False) at source line 415,
modelled as an insertion sort by descending score.  The tie order of the
pandas default quicksort is unspecified; nothing below depends on it. -/
def sort_values_desc (records : List EnrichmentRecord) : List EnrichmentRecord :=
  records.foldr insertDescByScore []

/-- The successive contents written to DATA_DIR/enrichment_(method)_NSC.csv
for one method: first the sorted table inside analyze_enrichment (source
lines 413-416), then the module-level loop at source lines 641-642 writes
the UNSORTED DataFrame of the results dict to the same path. -/
def csv_write_sequence (records : List EnrichmentRecord) :
    List (List EnrichmentRecord) :=
  [sort_values_desc records, records]

/-- The content the file holds after the run: the last write wins. -/
def final_csv (records : List EnrichmentRecord) : List EnrichmentRecord :=
  (csv_write_sequence records).foldl (fun _ w => w) []

/-- The sortedness the claim asserts of the reported table: adjacent scores
non-increasing in the float order. -/
def nonIncreasingByScore : List EnrichmentRecord → Bool
  | [] => true
  | [_] => true
  | a :: b :: t =>
    scoreLeB b.enrichment_score a.enrichment_score && nonIncreasingByScore (b :: t)

-- ### concrete two-gene run for claim C1

def n2iTwoGenes : List (PyStr × GeneInfo) :=
  [("GA".toList, ⟨"chr1".toList, 1000, 2000, "+".toList⟩),
   ("GB".toList, ⟨"chr2".toList, 1000, 2000, "+".toList⟩)]

def exoDictTwo : List (PyStr × PeakFrame) :=
  [("NSCv1".toList, .table [mkPeak "chr1".toList 100 200 2 1,
                            mkPeak "chr2".toList 100 200 4 1])]

def endoDictTwo : List (PyStr × PeakFrame) :=
  [("NSCM1".toList, .table [mkPeak "chr1".toList 100 200 2 1,
                            mkPeak "chr2".toList 100 200 2 1])]

def deaTwoGenes : List DeaRow :=
  [⟨some "GA".toList, 1, 1/100⟩, ⟨some "GB".toList, 1, 1/100⟩]

def recordsTwoGenes : List EnrichmentRecord :=
  analyze_method deaTwoGenes exoDictTwo endoDictTwo n2iTwoGenes signal_ratio

/-- Claim C1 (code behavior at the failing input): on a run whose records
arrive in ascending score order (signal_ratio scores 1 then 2), the final
content of enrichment_signal_ratio_NSC.csv is the unsorted record list - the
module-level rewrite overwrites the sorted file - so the table handed to the
Reporting Layer is NOT non-increasing in enrichment_score, even though the
overwritten first write was. -/
theorem C1_final_csv_unsorted :
    recordsTwoGenes.map EnrichmentRecord.enrichment_score =
      [Score.val 1, Score.val 2] ∧
    final_csv recordsTwoGenes = recordsTwoGenes ∧
    nonIncreasingByScore (final_csv recordsTwoGenes) = false ∧
    nonIncreasingByScore (sort_values_desc recordsTwoGenes) = true :=
  ⟨by with_unfolding_all decide, rfl, by with_unfolding_all decide,
   by with_unfolding_all decide⟩

-- ### structural facts about process_gene and the per-method loop

theorem process_gene_some_fields {dea : List DeaRow}
    {pe pn : List (PyStr × PeakFrame)} {n2i : List (PyStr × GeneInfo)}
    {m : PeakFrame → PeakFrame → Except PdErr Score} {g : PyStr}
    {rec : EnrichmentRecord} (h : process_gene dea pe pn n2i m g = some rec) :
    rec.gene = g ∧
      ∃ row, dea.find? (fun r => decide (dea_gene_std r = some g)) = some row ∧
        rec.log2FoldChange = row.log2FoldChange ∧ rec.padj = row.padj := by
  unfold process_gene at h
  split at h
  · split at h
    · exact absurd h (by simp)
    · split at h
      · exact absurd h (by simp)
      · split at h
        · exact absurd h (by simp)
        · rename_i info heq
          split at h
          · exact absurd h (by simp)
          · injection h with h2
            subst h2
            exact ⟨rfl, info, heq, rfl, rfl⟩
  · exact absurd h (by simp)

theorem countP_filterMap_process (dea : List DeaRow)
    (pe pn : List (PyStr × PeakFrame)) (n2i : List (PyStr × GeneInfo))
    (m : PeakFrame → PeakFrame → Except PdErr Score) (g : PyStr)
    (l : List PyStr) :
    ((l.filterMap (process_gene dea pe pn n2i m)).countP
        fun r => decide (r.gene = g)) =
      (if (process_gene dea pe pn n2i m g).isSome then 1 else 0) *
        l.countP (fun x => decide (x = g)) := by
  induction l with
  | nil => simp
  | cons a t ih =>
    by_cases hag : a = g
    · subst hag
      cases hfa : process_gene dea pe pn n2i m a with
      | none =>
        rw [List.filterMap_cons_none hfa]
        simp only [hfa, Option.isSome_none, Bool.false_eq_true, if_false] at ih ⊢
        rw [List.countP_cons]
        simp [ih]
      | some b =>
        have hbg : b.gene = a := (process_gene_some_fields hfa).1
        rw [List.filterMap_cons_some hfa]
        rw [List.countP_cons, List.countP_cons]
        simp only [hfa, Option.isSome_some, if_true] at ih ⊢
        simp [hbg, ih]
    · cases hfa : process_gene dea pe pn n2i m a with
      | none =>
        rw [List.filterMap_cons_none hfa]
        rw [List.countP_cons]
        simp [hag, ih]
      | some b =>
        have hbg : b.gene = a := (process_gene_some_fields hfa).1
        have hbne : ¬ (b.gene = g) := by rw [hbg]; exact hag
        rw [List.filterMap_cons_some hfa]
        rw [List.countP_cons, List.countP_cons]
        simp [hbne, hag, ih]

theorem upreg_genes_countP (dea : List DeaRow) (g : PyStr) :
    ((upreg_genes dea).countP fun x => decide (x = g)) =
      dea.countP fun r =>
        decide ((1 : ℚ)/2 < r.log2FoldChange) && decide (r.padj < (1 : ℚ)/20) &&
          decide (dea_gene_std r = some g) := by
  induction dea with
  | nil => rfl
  | cons r t ih =>
    unfold upreg_genes at ih ⊢
    rw [List.filter_cons, List.countP_cons]
    by_cases hc : (decide ((1 : ℚ)/2 < r.log2FoldChange) &&
        decide (r.padj < (1 : ℚ)/20) && (dea_gene_std r).isSome) = true
    · rw [if_pos hc]
      cases hr : dea_gene_std r with
      | none => rw [hr] at hc; simp at hc
      | some y =>
        rw [List.filterMap_cons_some hr, List.countP_cons, ih]
        rw [Bool.and_eq_true, Bool.and_eq_true] at hc
        have p1 := of_decide_eq_true hc.1.1
        have p2 := of_decide_eq_true hc.1.2
        have q1 : (2⁻¹ : ℚ) < r.log2FoldChange := by rwa [one_div] at p1
        have q2 : r.padj < (20⁻¹ : ℚ) := by rwa [one_div] at p2
        simp [hr, q1, q2]
    · rw [if_neg hc]
      rw [ih]
      by_cases hg : dea_gene_std r = some g
      · have hs : (dea_gene_std r).isSome = true := by rw [hg]; rfl
        have hft : (decide ((1 : ℚ)/2 < r.log2FoldChange) &&
            decide (r.padj < (1 : ℚ)/20)) = false := by
          by_contra hcc
          rw [Bool.not_eq_false, Bool.and_eq_true] at hcc
          exact hc (by rw [hcc.1, hcc.2, hs]; rfl)
        rw [Bool.and_eq_false_iff] at hft
        rcases hft with hf1 | hf1 <;> simp at hf1 <;> simp [hf1]
      · simp [hg]

/-- Claim C10: for any method and any gene identifier, the per-method record
list holds one record per qualifying duplicate row of the
differential-expression table - each row with log2FoldChange > 0.5,
padj < 0.05 and that standardized name contributes one occurrence, all
scored identically (so duplicates repeat) - provided the identifier yields a
record at all; and every emitted record for the identifier copies
log2FoldChange and padj from the FIRST row of the full table whose
standardized name matches, a row that need not itself pass the thresholds
(see the witness, whose matching first row has log2FoldChange 0, padj 1). -/
theorem C10_duplicate_rows (dea : List DeaRow) (pe pn : List (PyStr × PeakFrame))
    (n2i : List (PyStr × GeneInfo)) (m : PeakFrame → PeakFrame → Except PdErr Score)
    (g : PyStr) :
    (((analyze_method dea pe pn n2i m).countP fun r => decide (r.gene = g)) =
      (if (process_gene dea pe pn n2i m g).isSome then 1 else 0) *
        dea.countP (fun r =>
          decide ((1 : ℚ)/2 < r.log2FoldChange) && decide (r.padj < (1 : ℚ)/20) &&
            decide (dea_gene_std r = some g))) ∧
    (∀ rec, rec ∈ analyze_method dea pe pn n2i m → rec.gene = g →
      ∃ row, dea.find? (fun r => decide (dea_gene_std r = some g)) = some row ∧
        rec.log2FoldChange = row.log2FoldChange ∧ rec.padj = row.padj) := by
  constructor
  · unfold analyze_method
    rw [countP_filterMap_process, upreg_genes_countP]
  · intro rec hmem hg
    unfold analyze_method at hmem
    rw [List.mem_filterMap] at hmem
    obtain ⟨a, _, hfa⟩ := hmem
    have h1 := process_gene_some_fields hfa
    have hag : a = g := by rw [← h1.1]; exact hg
    subst hag
    exact h1.2

-- ### concrete duplicate-row run for the C10 witness

def deaDup : List DeaRow :=
  [⟨some "A".toList, 0, 1⟩,
   ⟨some "A.1".toList, 1, 1/100⟩,
   ⟨some "A.2".toList, 2, 1/100⟩]

def n2iSingle : List (PyStr × GeneInfo) :=
  [("A".toList, ⟨"chr1".toList, 1000, 2000, "+".toList⟩)]

def exoDictSingle : List (PyStr × PeakFrame) :=
  [("NSCv1".toList, .table [mkPeak "chr1".toList 100 200 3 1])]

def endoDictSingle : List (PyStr × PeakFrame) :=
  [("NSCM1".toList, .table [mkPeak "chr1".toList 100 200 1 1])]

def recordDupA : EnrichmentRecord :=
  ⟨"A".toList, Score.val 3, 0, 1,
   "chr1:100-200".toList, "chr1:100-200".toList, 1, 1⟩

/-- Claim C10 witness: in a run where rows A.1 and A.2 qualify and both
standardize to A, the emitted record carries log2FoldChange 0 and padj 1
copied from the first matching row of the full table - the row for A itself,
which fails both thresholds. -/
theorem C10_duplicate_rows_witness :
    ∃ row, deaDup.find? (fun r => decide (dea_gene_std r = some "A".toList)) =
        some row ∧
      recordDupA.log2FoldChange = row.log2FoldChange ∧
      recordDupA.padj = row.padj :=
  (C10_duplicate_rows deaDup exoDictSingle endoDictSingle n2iSingle
    signal_ratio "A".toList).2 recordDupA (by with_unfolding_all decide) rfl
